import Mathlib

/-!
Verification development for the CsvToChords pipeline (csvToChords.py).

The Python source is shallowly embedded: Python strings are `List Char`,
`datetime` values are wall-clock seconds since the Unix epoch paired with an
optional fixed UTC offset (the `zoneinfo` timezone is abstracted by its fixed
offset, in seconds, at the instants of interest), `float` timestamps are exact
rationals, pandas cells are an inductive `Cell` type, dataframes carry the
pandas invariant that every row has every column, and fallible code returns
`Option` / `Except`.
-/

deriving instance DecidableEq for Except

namespace CsvToChords

/-! ## Calendar arithmetic (proleptic Gregorian, as Python `datetime`) -/

/-- Gregorian leap-year test, as `calendar.isleap`. -/
def isLeap (y : Nat) : Bool :=
  y % 4 == 0 && (y % 100 != 0 || y % 400 == 0)

/-- Length of month `m` (1-12) in year `y`, as `datetime` validates it. -/
def daysInMonth (y m : Nat) : Nat :=
  if m = 2 then (if isLeap y then 29 else 28)
  else [31, 28, 31, 30, 31, 30, 31, 31, 30, 31, 30, 31].getD (m - 1) 0

/-- Days in year `y` that precede the first day of month `m` (1-12). -/
def daysBeforeMonth (y m : Nat) : Nat :=
  [0, 31, 59, 90, 120, 151, 181, 212, 243, 273, 304, 334].getD (m - 1) 0 +
    (if 2 < m && isLeap y then 1 else 0)

/-- Days from 1970-01-01 to the civil date `y-m-d` (may be negative for
dates before the epoch; here `y ≥ 1` always holds when it is used). -/
def epochDays (y m d : Nat) : Int :=
  (365 * (y - 1) + (y - 1) / 4 + (y - 1) / 400 - (y - 1) / 100
    + daysBeforeMonth y m + (d - 1) : Nat) - 719162

/-! ## Character-level parsing helpers (Python string ops on `List Char`) -/

/-- Case-insensitive literal match; returns the rest of the input. -/
def matchStrCI : List Char → List Char → Option (List Char)
  | [], rest => some rest
  | _ :: _, [] => none
  | p :: ps, c :: cs => if p.toLower == c.toLower then matchStrCI ps cs else none

/-- Numeric value of a decimal digit character. -/
def digVal (c : Char) : Nat := c.toNat - 48

/-- One or two leading decimal digits (greedy), as the `\d{1,2}` fields of
CPython `_strptime`. -/
def take2Digits : List Char → Option (Nat × List Char)
  | [] => none
  | c1 :: rest =>
    if c1.isDigit then
      match rest with
      | c2 :: rest2 =>
        if c2.isDigit then some (digVal c1 * 10 + digVal c2, rest2)
        else some (digVal c1, rest)
      | [] => some (digVal c1, [])
    else none

/-- Exactly two leading decimal digits, as the zero-padded fields of
`datetime.fromisoformat` before Python 3.11. -/
def takeExactly2 : List Char → Option (Nat × List Char)
  | c1 :: c2 :: rest =>
    if c1.isDigit && c2.isDigit then some (digVal c1 * 10 + digVal c2, rest)
    else none
  | _ => none

/-- Exactly four leading decimal digits, as `%Y` (`\d\d\d\d`) and the ISO year. -/
def take4Digits : List Char → Option (Nat × List Char)
  | c1 :: c2 :: c3 :: c4 :: rest =>
    if c1.isDigit && c2.isDigit && c3.isDigit && c4.isDigit then
      some (digVal c1 * 1000 + digVal c2 * 100 + digVal c3 * 10 + digVal c4, rest)
    else none
  | _ => none

/-- One single literal character. -/
def lit (ch : Char) : List Char → Option (List Char)
  | c :: cs => if c == ch then some cs else none
  | [] => none

/-- One or more whitespace characters (a run of whitespace in a `strptime`
format matches `\s+`). -/
def ws1 : List Char → Option (List Char)
  | c :: cs => if c.isWhitespace then some (cs.dropWhile Char.isWhitespace) else none
  | [] => none

/-- Python `str.strip()`. -/
def stripChars (cs : List Char) : List Char :=
  ((cs.dropWhile Char.isWhitespace).reverse.dropWhile Char.isWhitespace).reverse

/-- Python `str.split(sep)` for the one-character separator `'-'`. -/
def splitHyphens : List Char → List (List Char)
  | [] => [[]]
  | c :: cs =>
    if c == '-' then [] :: splitHyphens cs
    else
      match splitHyphens cs with
      | [] => [[c]]
      | p :: ps => (c :: p) :: ps

/-! ## `strptime` with format `"%A, %m/%d/%Y %I:%M%p"` -/

/-- The fields captured by the fixed SunPower `strptime` format. -/
structure SunFields where
  m : Nat
  d : Nat
  y : Nat
  h12 : Nat
  minu : Nat
  pm : Bool

/-- The full weekday names matched (case-insensitively) by `%A`. -/
def weekdayNames : List (List Char) :=
  ["Sunday", "Monday", "Tuesday", "Wednesday", "Thursday", "Friday",
   "Saturday"].map String.data

/-- Match any of the given literals case-insensitively. -/
def stripAnyCI : List (List Char) → List Char → Option (List Char)
  | [], _ => none
  | p :: ps, cs =>
    match matchStrCI p cs with
    | some r => some r
    | none => stripAnyCI ps cs

/-- The `%p` field: `am`/`pm`, case-insensitive; `true` means pm. -/
def parseAmPm (cs : List Char) : Option (Bool × List Char) :=
  match matchStrCI ['a', 'm'] cs with
  | some r => some (false, r)
  | none =>
    match matchStrCI ['p', 'm'] cs with
    | some r => some (true, r)
    | none => none

/-- Syntactic pass of `strptime(s, "%A, %m/%d/%Y %I:%M%p")`; the whole input
must be consumed (`strptime` rejects unconverted trailing data). -/
def parseSunFields (cs : List Char) : Option SunFields := do
  let r0 ← stripAnyCI weekdayNames cs
  let r1 ← lit ',' r0
  let r2 ← ws1 r1
  let (m, r3) ← take2Digits r2
  let r4 ← lit '/' r3
  let (d, r5) ← take2Digits r4
  let r6 ← lit '/' r5
  let (y, r7) ← take4Digits r6
  let r8 ← ws1 r7
  let (h12, r9) ← take2Digits r8
  let r10 ← lit ':' r9
  let (minu, r11) ← take2Digits r10
  let (pm, r12) ← parseAmPm r11
  if r12.isEmpty then pure ⟨m, d, y, h12, minu, pm⟩ else none

/-- Range validation performed by the `datetime` constructor plus the `%I`/`%M`
regex classes, followed by conversion to (days since epoch, seconds into the
day). `%I = 12` denotes hour 0 (am) or 12 (pm). -/
def mkSunDT (f : SunFields) : Option (Int × Int) :=
  if 1 ≤ f.m ∧ f.m ≤ 12 ∧ 1 ≤ f.d ∧ f.d ≤ daysInMonth f.y f.m ∧ 1 ≤ f.y ∧
      1 ≤ f.h12 ∧ f.h12 ≤ 12 ∧ f.minu ≤ 59 then
    some (epochDays f.y f.m f.d,
      ((f.h12 % 12 + (if f.pm then 12 else 0)) * 3600 + f.minu * 60 : Nat))
  else none

/-- `datetime.strptime(s, "%A, %m/%d/%Y %I:%M%p")` as (days since epoch,
seconds into the day) of the naive result. -/
def sunStrptime (cs : List Char) : Option (Int × Int) :=
  (parseSunFields cs).bind mkSunDT

/-! ## `datetime.fromisoformat` (the subset used by the claims) -/

/-- A Python `datetime`: wall-clock seconds since the epoch (the value of the
naive fields read as UTC) plus the attached fixed UTC offset, if any. -/
structure PyDt where
  wall : Int
  tz : Option Int
deriving DecidableEq

/-- `YYYY-MM-DD` with zero-padded fields, as pre-3.11 `fromisoformat`. -/
def parseIsoDate (cs : List Char) : Option (Nat × Nat × Nat × List Char) := do
  let (y, r1) ← take4Digits cs
  let r2 ← lit '-' r1
  let (m, r3) ← takeExactly2 r2
  let r4 ← lit '-' r3
  let (d, r5) ← takeExactly2 r4
  pure (y, m, d, r5)

/-- `HH[:MM[:SS]]` with zero-padded fields (fractional seconds omitted from
the model). -/
def parseIsoTime (cs : List Char) : Option (Nat × Nat × Nat × List Char) := do
  let (h, r1) ← takeExactly2 cs
  match lit ':' r1 with
  | none => pure (h, 0, 0, r1)
  | some r2 => do
    let (mi, r3) ← takeExactly2 r2
    match lit ':' r3 with
    | none => pure (h, mi, 0, r3)
    | some r4 => do
      let (se, r5) ← takeExactly2 r4
      pure (h, mi, se, r5)

/-- The UTC-offset tail `HH:MM[:SS]` of an ISO string; minutes are mandatory
(`fromisoformat` accepts only offset strings of length 5, 8 or 15). -/
def parseTzHMS (cs : List Char) : Option (Nat × List Char) := do
  let (h, r1) ← takeExactly2 cs
  let r2 ← lit ':' r1
  let (mi, r3) ← takeExactly2 r2
  match lit ':' r3 with
  | none => pure (h * 3600 + mi * 60, r3)
  | some r4 => do
    let (se, r5) ← takeExactly2 r4
    pure (h * 3600 + mi * 60 + se, r5)

/-- Validation performed by the `date`/`time`/`timezone` constructors, then
conversion to a `PyDt`. -/
def mkIsoDt (y m d h mi se : Nat) (off : Option Int) : Option PyDt :=
  if 1 ≤ y ∧ 1 ≤ m ∧ m ≤ 12 ∧ 1 ≤ d ∧ d ≤ daysInMonth y m ∧
      h ≤ 23 ∧ mi ≤ 59 ∧ se ≤ 59 ∧ (∀ o ∈ off, o.natAbs < 86400) then
    some ⟨epochDays y m d * 86400 + (h * 3600 + mi * 60 + se : Nat), off⟩
  else none

/-- `datetime.fromisoformat` on the subset `YYYY-MM-DD[<sep>HH[:MM[:SS]]
[(+|-)HH:MM[:SS]]]` (any single separator character, as pre-3.11 CPython,
which slices the string at index 10). -/
def isoFromString (cs : List Char) : Option PyDt := do
  let (y, m, d, r) ← parseIsoDate cs
  match r with
  | [] => mkIsoDt y m d 0 0 0 none
  | _sep :: rest => do
    let (h, mi, se, r2) ← parseIsoTime rest
    match r2 with
    | [] => mkIsoDt y m d h mi se none
    | sign :: r3 =>
      if sign == '+' || sign == '-' then do
        let (off, r4) ← parseTzHMS r3
        if r4.isEmpty then
          mkIsoDt y m d h mi se
            (some (if sign == '-' then -(off : Int) else (off : Int)))
        else none
      else none

/-! ## `stringToUnixTimestamp` -/

/-- `dt.replace(tzinfo=tzinfo)`: keep the wall-clock fields, set the zone. -/
def pyReplaceTz (dt : PyDt) (z : Int) : PyDt := ⟨dt.wall, some z⟩

/-- `dt.timestamp()` of an aware datetime: wall-clock seconds minus the UTC
offset (every call site attaches an offset first). -/
def pyTimestamp (dt : PyDt) : ℚ := ((dt.wall - dt.tz.getD 0 : Int) : ℚ)

/-- The SunPower-range branch of `stringToUnixTimestamp` (source lines 27-45):
split on `'-'`, rebuild the two datetime strings, `strptime` both, attach the
zone, roll the end over by one day when it precedes the start, and return the
timestamp of the midpoint. -/
def sunpowerParseRange (s : List Char) : Option ((Int × Int) × (Int × Int)) :=
  match splitHyphens s with
  | p0 :: p1 :: p2 :: _ =>
    match sunStrptime (p0 ++ stripChars p1), sunStrptime (p0 ++ stripChars p2) with
    | some a, some b => some (a, b)
    | _, _ => none
  | _ => none

/-- Midpoint computation of the range branch on wall-clock seconds; both
endpoints carry the same offset `z`, so the aware comparison `enddt < startdt`
is the wall-clock comparison. -/
def sunpowerBranch (s : List Char) (z : Int) : Option ℚ :=
  (sunpowerParseRange s).map (fun ab =>
    let sw : Int := ab.1.1 * 86400 + ab.1.2
    let ew : Int := ab.2.1 * 86400 + ab.2.2
    let ew2 : Int := if ew < sw then ew + 86400 else ew
    ((sw : ℚ) + ((ew2 - sw : Int) : ℚ) / 2) - (z : ℚ))

set_option linter.unusedVariables false in
/-- `stringToUnixTimestamp(datetimeString, year, tzinfo)`: try
`fromisoformat` (any exception swallowed), then the SunPower range format;
a failure of the second branch is logged with the offending string and
re-raised, modelled as `.error s`. The `year` argument is accepted but never
read, exactly as in the source. -/
def stringToUnixTimestamp (s : List Char) (year : Int) (z : Int) :
    Except (List Char) ℚ :=
  match isoFromString s with
  | some dt => .ok (pyTimestamp (pyReplaceTz dt z))
  | none =>
    match sunpowerBranch s z with
    | some v => .ok v
    | none => .error s

/-- Modelled refinement of the spec's words for the ISO branch: attach the
supplied zone only when the parsed string lacks zone information. -/
def isoResolveAsSpecified (dt : PyDt) (z : Int) : ℚ :=
  ((dt.wall - dt.tz.getD z : Int) : ℚ)

/-- The spec's midpoint formula on instants: `start + (end - start)/2` after
adding one day to the end when it precedes the start. -/
def instantOf (d tod z : Int) : ℚ := ((d * 86400 + tod : Int) : ℚ) - (z : ℚ)

/-- Spec-side midpoint of a bucketed range with one date `d`, start and end
times of day `ts`, `te`, and zone offset `z`. -/
def rangeMidpoint (d ts te z : Int) : ℚ :=
  if te < ts then
    instantOf d ts z + ((instantOf d te z + 86400) - instantOf d ts z) / 2
  else
    instantOf d ts z + (instantOf d te z - instantOf d ts z) / 2

/-! ## pandas cells, rows and dataframes -/

/-- A pandas cell: a string, a number, or the missing/NaN sentinel. -/
inductive Cell where
  | str (s : String)
  | num (q : ℚ)
  | nan
deriving DecidableEq

/-- `pandas.notna`. -/
def pdNotna : Cell → Bool
  | .nan => false
  | _ => true

/-- A row addressed by column name, as `df.loc[i]` indexed by header. -/
abbrev Row := List (String × Cell)

/-- A variable record handed to `sendData` (Python dict, insertion-ordered). -/
abbrev Vars := List (String × Cell)

/-- A pandas dataframe: headers plus cell rows, each row carrying the pandas
invariant that it has a cell for every column. -/
structure Dataframe where
  columns : List String
  cells : List { r : List Cell // r.length = columns.length }

/-- `df[name] = vals`: append a new column. -/
def Dataframe.addColumn (df : Dataframe) (name : String) (vals : List Cell) :
    Dataframe :=
  ⟨df.columns ++ [name],
   List.zipWith (fun rc v => ⟨rc.1 ++ [v], by simp [rc.2]⟩) df.cells vals⟩

/-- Index of a column among the headers. -/
def colIndex (tc : String) : List String → Nat
  | [] => 0
  | c :: cs => if c = tc then 0 else colIndex tc cs + 1

/-- The cells of column `tc`, as `dataframe[tc]`. -/
def colValues (df : Dataframe) (tc : String) : List Cell :=
  df.cells.map (fun rc => rc.1.getD (colIndex tc df.columns) Cell.nan)

/-! ## `readDataFile` -/

/-- The external tabular-load collaborators for one file: whether the path
exists, and the dataframe produced by `read_excel` / `read_csv` when the
respective decoder succeeds. -/
structure LoadEnv where
  fileExists : Bool
  excel : Option Dataframe
  csv : Option Dataframe

/-- `stringToUnixTimestamp` applied to one pandas cell; a non-string cell
raises before the string is even split (modelled as an empty logged string). -/
def resolveCell (y z : Int) : Cell → Except (List Char) ℚ
  | .str s => stringToUnixTimestamp s.data y z
  | _ => .error []

/-- `Series.apply(stringToUnixTimestamp, ...)`: the first raising cell aborts
the whole conversion, otherwise all converted values are collected. -/
def resolveList (y z : Int) : List Cell → Except (List Char) (List Cell)
  | [] => .ok []
  | c :: rest =>
    match resolveCell y z c with
    | .error e => .error e
    | .ok q =>
      match resolveList y z rest with
      | .error e => .error e
      | .ok qs => .ok (.num q :: qs)

/-- The name of the appended timestamp column. -/
def uniCol : String := "Unix Timestamp"

/-- `readDataFile(config, path, year, tzinfo)` (source lines 51-80): `.ok none`
models `return None` (missing file, both decoders failed, or missing time
column); an uncaught timestamp exception propagates as `.error`. -/
def readDataFile (tc : String) (env : LoadEnv) (y z : Int) :
    Except (List Char) (Option Dataframe) :=
  if env.fileExists = false then .ok none
  else
    match (match env.excel with | some d => some d | none => env.csv) with
    | none => .ok none
    | some df =>
      if tc ∈ df.columns then
        match resolveList y z (colValues df tc) with
        | .error e => .error e
        | .ok vals => .ok (some (df.addColumn uniCol vals))
      else .ok none

/-! ## Row mapping (`handleFile` body, source lines 101-122) -/

/-- Python `dict` assignment: replace in place if the key exists, else append. -/
def dictInsert (k : String) (v : Cell) : Vars → Vars
  | [] => [(k, v)]
  | (k1, v1) :: rest =>
    if k1 = k then (k1, v) :: rest else (k1, v1) :: dictInsert k v rest

/-- The variable-collection loop: for each `(short_name, column_name)` pair,
skip absent columns, skip NaN cells, otherwise store the raw cell. -/
def collectVars (row : Row) : List (String × String) → Vars → Vars
  | [], acc => acc
  | (short, col) :: rest, acc =>
    match List.lookup col row with
    | none => collectVars row rest acc
    | some c =>
      if pdNotna c then collectVars row rest (dictInsert short c acc)
      else collectVars row rest acc

/-- One iteration of the row loop: skip the row (`continue`) when the time
column is absent, else build `{at: raw time cell}` plus the mapped variables.
Note the source stores the raw time cell, not the `Unix Timestamp` column. -/
def mapRow (row : Row) (pairs : List (String × String)) (tc : String) :
    Option Vars :=
  match List.lookup tc row with
  | none => none
  | some t => some (collectVars row pairs [("at", t)])

/-! ## Configuration and `handleFile` -/

/-- One entry of the `variables` configuration list. -/
structure ConfigVariable where
  column_name : String
  short_name : String

/-- The JSON configuration as read by the program. -/
structure Config where
  instrument_id : String
  api_email : String
  api_key : String
  chords_host : String
  time_column_name : String
  delimiter : String
  sleep_secs : ℚ
  variables_ : List ConfigVariable
  max_queue_length : Option Nat
  test : Bool

/-- `zip(short_names, column_names)`. -/
def varPairs (cfg : Config) : List (String × String) :=
  cfg.variables_.map (fun v => (v.short_name, v.column_name))

/-- How a run can terminate abnormally. -/
inductive RunErr where
  | exitCode (n : Int)
  | raised (msg : List Char)
deriving DecidableEq

/-- `handleFile(config, file)`: `sys.exit(-1)` when loading returned `None`,
exception propagation otherwise; on success the list of variable records
passed to `sendData`, in row order (rows lacking the time column are
skipped). The `year`/`tzinfo` defaults of `readDataFile` are the extra
arguments. -/
def handleFile (cfg : Config) (env : LoadEnv) (y z : Int) :
    Except RunErr (List Vars) :=
  match readDataFile cfg.time_column_name env y z with
  | .error e => .error (.raised e)
  | .ok none => .error (.exitCode (-1))
  | .ok (some df) =>
    .ok ((df.cells.map (fun rc => df.columns.zip rc.1)).filterMap
      (fun row => mapRow row (varPairs cfg) cfg.time_column_name))

/-! ## `sendData` and `main` -/

/-- The outbound record built from identity fields plus the variables. -/
structure ChordsRecord where
  inst_id : String
  api_email : String
  api_key : String
  vars : Vars
deriving DecidableEq

/-- The observable effects of one `sendData` call, in program order. -/
inductive SendAction where
  | buildRec (r : ChordsRecord)
  | logRequest
  | enqueue (r : ChordsRecord) (maxQueue : Nat)
  | sleep (secs : ℚ)
deriving DecidableEq

/-- `sendData(config, vars)` (source lines 125-144): build the record and URI,
log it, enqueue unless in test mode, and always sleep `sleep_secs` last. -/
def sendData (cfg : Config) (vars : Vars) : List SendAction :=
  let r : ChordsRecord := ⟨cfg.instrument_id, cfg.api_email, cfg.api_key, vars⟩
  let maxQ := cfg.max_queue_length.getD (31 * 60 * 24)
  [SendAction.buildRec r, SendAction.logRequest] ++
    (if cfg.test then [] else [SendAction.enqueue r maxQ]) ++
    [SendAction.sleep cfg.sleep_secs]

/-- The outcome of the per-file loop of `main`. -/
structure RunResult where
  submitted : List Vars
  exit : Option RunErr
deriving DecidableEq

/-- The `for file in files` loop of `main` (source lines 159-161): files are
handled in order, their records submitted as they are produced; the first
abnormal termination stops the run, records of earlier files having already
been submitted. -/
def mainRun (cfg : Config) (y z : Int) : List LoadEnv → RunResult
  | [] => ⟨[], none⟩
  | f :: rest =>
    match handleFile cfg f y z with
    | .error e => ⟨[], some e⟩
    | .ok subs =>
      let r := mainRun cfg y z rest
      ⟨subs ++ r.submitted, r.exit⟩

/-- The drain loop of `main` (source lines 164-169): poll `tochords.waiting()`,
log the count, sleep one second, and exit the loop when the polled count was
zero. `counts k` is the queue length returned by the `k`-th poll; the result
is the list of polled (and logged) counts, one entry per loop iteration and
per one-second sleep, or `none` when `fuel` iterations did not reach zero. -/
def drainRun : Nat → (Nat → Nat) → Nat → Option (List Nat)
  | 0, _, _ => none
  | fuel + 1, c, k =>
    if c k = 0 then some [c k]
    else (drainRun fuel c (k + 1)).map (fun l => c k :: l)

/-! ## Concrete scenario data (spec section 8) -/

/-- The raw time cell of the spec's scenario row. -/
def scenarioTimeStr : String := "Saturday, 2/12/2022 - 7:00am - 8:00am"

/-- The scenario row `{"Time": ..., "Temp": 21.5, "Hum": null}` as a loaded
dataframe. -/
def scenarioDf : Dataframe :=
  ⟨["Time", "Temp", "Hum"],
   [⟨[Cell.str scenarioTimeStr, Cell.num (21.5 : ℚ), Cell.nan], by rfl⟩]⟩

/-- A file whose spreadsheet decoder yields the scenario dataframe. -/
def scenarioEnv : LoadEnv := ⟨true, some scenarioDf, none⟩

/-- A nonexistent file path. -/
def failEnv : LoadEnv := ⟨false, none, none⟩

/-- A configuration with the scenario's mapping `[(Temp,temp),(Hum,hum)]` and
time column `Time`, in test mode. -/
def scenarioConfig : Config :=
  ⟨"1", "e", "k", "h", "Time", ",", (1 : ℚ) / 100,
   [⟨"Temp", "temp"⟩, ⟨"Hum", "hum"⟩], none, true⟩

/-- The scenario row as the assoc-list view `df.loc[i]` of the raw file. -/
def scenarioRow : Row :=
  [("Time", Cell.str scenarioTimeStr), ("Temp", Cell.num (21.5 : ℚ)),
   ("Hum", Cell.nan)]

/-- The scenario dataframe after `readDataFile` appended `Unix Timestamp`. -/
def scenarioLoaded : Dataframe :=
  scenarioDf.addColumn uniCol [Cell.num (1644679800 : ℚ)]

/-- A bucketed range crossing midnight (start 11:30pm, end 12:30am). -/
def rolloverStr : String := "Saturday, 2/12/2022 - 11:30pm - 12:30am"

/-- A queue-length oracle that reports 5 pending twice, then 0. -/
def drainCounts : Nat → Nat := fun n => if n < 2 then 5 else 0

/-! ## Supporting lemmas -/

/-- Membership of a Python-dict insertion: the new binding or an old one. -/
theorem mem_dictInsert {k k1 : String} {v v1 : Cell} {d : Vars}
    (h : (k, v) ∈ dictInsert k1 v1 d) :
    (k = k1 ∧ v = v1) ∨ (k, v) ∈ d := by
  induction d with
  | nil =>
    simp only [dictInsert, List.mem_singleton] at h
    exact Or.inl (by injection h with h1 h2; exact ⟨h1, h2⟩)
  | cons a rest ih =>
    obtain ⟨a1, a2⟩ := a
    simp only [dictInsert] at h
    by_cases ha : a1 = k1
    · rw [if_pos ha] at h
      rcases List.mem_cons.mp h with h | h
      · injection h with h1 h2
        exact Or.inl ⟨h1.trans ha, h2⟩
      · exact Or.inr (List.mem_cons_of_mem _ h)
    · rw [if_neg ha] at h
      rcases List.mem_cons.mp h with h | h
      · exact Or.inr (h ▸ List.mem_cons_self _ _)
      · rcases ih h with h | h
        · exact Or.inl h
        · exact Or.inr (List.mem_cons_of_mem _ h)

/-- Every binding produced by the variable-collection loop is either from the
initial accumulator or certified by a mapping pair whose source cell is
present and non-NaN. -/
theorem collectVars_mem {row : Row} {k : String} {v : Cell} :
    ∀ (pairs : List (String × String)) (acc : Vars),
    (k, v) ∈ collectVars row pairs acc →
    (k, v) ∈ acc ∨
      ∃ col, (k, col) ∈ pairs ∧ List.lookup col row = some v ∧
        pdNotna v = true := by
  intro pairs
  induction pairs with
  | nil => intro acc h; exact Or.inl h
  | cons p rest ih =>
    obtain ⟨short, col⟩ := p
    intro acc h
    rw [collectVars] at h
    cases hl : List.lookup col row with
    | none =>
      rw [hl] at h
      dsimp only at h
      rcases ih acc h with h | ⟨c2, hc⟩
      · exact Or.inl h
      · exact Or.inr ⟨c2, List.mem_cons_of_mem _ hc.1, hc.2⟩
    | some c =>
      rw [hl] at h
      dsimp only at h
      by_cases hn : pdNotna c = true
      · rw [if_pos hn] at h
        rcases ih _ h with h | ⟨c2, hc⟩
        · rcases mem_dictInsert h with ⟨hk, hv⟩ | h
          · subst hk
            subst hv
            exact Or.inr ⟨col, List.mem_cons_self _ _, hl, hn⟩
          · exact Or.inl h
        · exact Or.inr ⟨c2, List.mem_cons_of_mem _ hc.1, hc.2⟩
      · rw [if_neg hn] at h
        rcases ih acc h with h | ⟨c2, hc⟩
        · exact Or.inl h
        · exact Or.inr ⟨c2, List.mem_cons_of_mem _ hc.1, hc.2⟩

/-- Looking up a present column in the header-cell zip of a full row
succeeds. -/
theorem lookup_zip_isSome (tc : String) :
    ∀ (cols : List String) (r : List Cell), tc ∈ cols →
    cols.length ≤ r.length →
    (List.lookup tc (cols.zip r)).isSome = true := by
  intro cols
  induction cols with
  | nil => intro r hm _; simp at hm
  | cons c cs ih =>
    intro r hm hl
    cases r with
    | nil => simp at hl
    | cons x xs =>
      by_cases hc : tc = c
      · simp [List.lookup, hc]
      · have hm2 : tc ∈ cs := by
          rcases List.mem_cons.mp hm with h | h
          · exact absurd h hc
          · exact h
        have hl2 : cs.length ≤ xs.length := by
          simpa using Nat.succ_le_succ_iff.mp (by simpa using hl)
        have hbeq : (tc == c) = false := by simp [hc]
        have hstep : List.lookup tc ((c, x) :: cs.zip xs) =
            List.lookup tc (cs.zip xs) := by
          simp [List.lookup, hbeq]
        rw [show (c :: cs).zip (x :: xs) = (c, x) :: cs.zip xs from rfl, hstep]
        exact ih xs hm2 hl2

/-- A successful `mkSunDT` yields a time of day within one day. -/
theorem mkSunDT_tod_bounds {f : SunFields} {d t : Int}
    (h : mkSunDT f = some (d, t)) : 0 ≤ t ∧ t < 86400 := by
  unfold mkSunDT at h
  split at h
  next hg =>
    rw [Option.some.injEq, Prod.mk.injEq] at h
    obtain ⟨_, ht⟩ := h
    obtain ⟨_, _, _, _, _, _, h7, h8⟩ := hg
    subst ht
    cases hp : f.pm <;> simp [hp] <;> omega
  next => exact Option.noConfusion h

/-- A successful `sunStrptime` yields a time of day within one day. -/
theorem sunStrptime_tod_bounds {cs : List Char} {d t : Int}
    (h : sunStrptime cs = some (d, t)) : 0 ≤ t ∧ t < 86400 := by
  unfold sunStrptime at h
  cases hp : parseSunFields cs with
  | none => rw [hp] at h; exact Option.noConfusion h
  | some f =>
    rw [hp, Option.some_bind] at h
    exact mkSunDT_tod_bounds h

/-- Both endpoints of a successfully parsed bucketed range carry times of day
within one day. -/
theorem sunpowerParseRange_bounds {s : List Char} {a b : Int × Int}
    (h : sunpowerParseRange s = some (a, b)) :
    (0 ≤ a.2 ∧ a.2 < 86400) ∧ (0 ≤ b.2 ∧ b.2 < 86400) := by
  unfold sunpowerParseRange at h
  split at h
  next p0 p1 p2 rest heq =>
    split at h
    next a0 b0 ha hb =>
      rw [Option.some.injEq, Prod.mk.injEq] at h
      obtain ⟨h1, h2⟩ := h
      subst h1
      subst h2
      exact ⟨sunStrptime_tod_bounds ha, sunStrptime_tod_bounds hb⟩
    next => exact Option.noConfusion h
  next => exact Option.noConfusion h

/-- `readDataFile` returning `None` makes `handleFile` call `sys.exit(-1)`. -/
theorem handleFile_of_load_none {cfg : Config} {env : LoadEnv} {y z : Int}
    (h : readDataFile cfg.time_column_name env y z = .ok none) :
    handleFile cfg env y z = .error (.exitCode (-1)) := by
  unfold handleFile
  rw [h]

/-! ## Claim theorems -/

/-- Claim C1 (code bug evidence): on the spec's scenario row, `handleFile`
stores the raw time string in the `at` entry of the record handed to
submission, even though the resolver maps that string to the canonical epoch
value 1644679800 (2022-02-12 07:30 at UTC-8), which the code computed into
the unused `Unix Timestamp` column. -/
theorem handleFile_at_is_raw_string :
    handleFile scenarioConfig scenarioEnv 2022 (-28800) =
      .ok [[("at", Cell.str scenarioTimeStr), ("temp", Cell.num (21.5 : ℚ))]] ∧
    stringToUnixTimestamp scenarioTimeStr.data 2022 (-28800) =
      .ok (1644679800 : ℚ) ∧
    Cell.str scenarioTimeStr ≠ Cell.num (1644679800 : ℚ) :=
  ⟨by rfl, by with_unfolding_all rfl, by intro h; exact Cell.noConfusion h⟩

/-- Claim C4 (code bug evidence): the `year` argument of the resolver is
never read (the two calls are definitionally equal for any two years), and a
legacy bucketed string without a year token is rejected with an error rather
than resolved with the caller-supplied reference year. -/
theorem resolver_ignores_year_and_rejects_yearless :
    (∀ (s : List Char) (y1 y2 z : Int),
      stringToUnixTimestamp s y1 z = stringToUnixTimestamp s y2 z) ∧
    stringToUnixTimestamp "Saturday, 2/12 - 7:00am - 8:00am".data 2022 (-28800) =
      .error "Saturday, 2/12 - 7:00am - 8:00am".data :=
  ⟨fun _ _ _ _ => rfl, by rfl⟩

/-- Claim C3 (counterexample): for the ISO string
`2022-02-12T07:00:00+05:00` resolved with zone UTC (offset 0), the code
discards the string's own `+05:00` offset and returns 1644649200, while the
spec's attach-only-when-lacking semantics yields 1644631200; the string's own
zone does not determine the result. -/
theorem resolver_iso_overrides_zone_cex :
    isoFromString "2022-02-12T07:00:00+05:00".data =
      some ⟨1644649200, some 18000⟩ ∧
    stringToUnixTimestamp "2022-02-12T07:00:00+05:00".data 2022 0 =
      .ok (1644649200 : ℚ) ∧
    isoResolveAsSpecified ⟨1644649200, some 18000⟩ 0 = (1644631200 : ℚ) ∧
    (1644649200 : ℚ) ≠ (1644631200 : ℚ) :=
  ⟨by rfl, by rfl, by norm_num [isoResolveAsSpecified], by norm_num⟩

/-- Claim C3 (amended): whenever the ISO parse succeeds, the resolver returns
the parsed wall-clock value with the supplied zone attached unconditionally
(`dt.replace(tzinfo=...)`); this agrees with the spec's semantics exactly
when the string carries no zone information. -/
theorem resolver_iso_always_attaches_zone (s : List Char) (y z : Int)
    (dt : PyDt) (h : isoFromString s = some dt) :
    stringToUnixTimestamp s y z = .ok (pyTimestamp (pyReplaceTz dt z)) ∧
    (dt.tz = none →
      stringToUnixTimestamp s y z = .ok (isoResolveAsSpecified dt z)) := by
  constructor
  · unfold stringToUnixTimestamp
    rw [h]
  · intro htz
    unfold stringToUnixTimestamp
    rw [h]
    simp [pyTimestamp, pyReplaceTz, isoResolveAsSpecified, htz]

/-- Witness for `resolver_iso_always_attaches_zone` at the zone-less string
`2022-02-12T07:00:00` with offset -28800. -/
theorem resolver_iso_always_attaches_zone_witness :
    isoFromString "2022-02-12T07:00:00".data = some ⟨1644649200, none⟩ ∧
    stringToUnixTimestamp "2022-02-12T07:00:00".data 2022 (-28800) =
      .ok (isoResolveAsSpecified ⟨1644649200, none⟩ (-28800)) :=
  ⟨by rfl,
   (resolver_iso_always_attaches_zone "2022-02-12T07:00:00".data 2022 (-28800)
      ⟨1644649200, none⟩ (by rfl)).2 rfl⟩

/-- Claim C5: an ISO-branch failure is swallowed and the bucketed-range
branch decides the outcome; the resolver returns an error exactly when both
branches fail, and the error carries the offending string. -/
theorem resolver_fallback_policy (s : List Char) (y z : Int) :
    (isoFromString s = none →
      stringToUnixTimestamp s y z =
        (match sunpowerBranch s z with
         | some v => .ok v
         | none => .error s)) ∧
    (∀ e, stringToUnixTimestamp s y z = .error e ↔
      (isoFromString s = none ∧ sunpowerBranch s z = none ∧ e = s)) := by
  constructor
  · intro h
    unfold stringToUnixTimestamp
    rw [h]
  · intro e
    unfold stringToUnixTimestamp
    cases hi : isoFromString s with
    | some dt => simp [hi]
    | none =>
      cases hs : sunpowerBranch s z with
      | some v => simp [hs]
      | none => simp [hs, eq_comm]

/-- Witness for `resolver_fallback_policy`: both branches fail on the string
`garbage`, so the resolver re-raises with that string. -/
theorem resolver_fallback_policy_witness :
    stringToUnixTimestamp "garbage".data 2022 0 = .error "garbage".data :=
  ((resolver_fallback_policy "garbage".data 2022 0).2 "garbage".data).mpr
    ⟨by rfl, by rfl, rfl⟩

/-- Claim C9: every `sendData` call builds the outbound record first and
sleeps `sleep_secs` last, in test mode and normal mode alike, and an enqueue
action occurs exactly when test mode is off. -/
theorem sendData_sleep_and_enqueue (cfg : Config) (vars : Vars) :
    (sendData cfg vars).getLast? = some (SendAction.sleep cfg.sleep_secs) ∧
    (sendData cfg vars).head? =
      some (SendAction.buildRec
        ⟨cfg.instrument_id, cfg.api_email, cfg.api_key, vars⟩) ∧
    ((∃ r q, SendAction.enqueue r q ∈ sendData cfg vars) ↔ cfg.test = false) := by
  unfold sendData
  cases h : cfg.test <;> simp [h]

/-- Claim C8: the row is skipped exactly when the time column is absent, and
otherwise every key of the produced record other than `at` is a configured
short name whose source cell was present and non-NaN (so unmapped columns
never appear and missing/NaN cells produce no entry). -/
theorem mapRow_strict_projection (row : Row) (pairs : List (String × String))
    (tc : String) :
    (mapRow row pairs tc = none ↔ List.lookup tc row = none) ∧
    (∀ out k v, mapRow row pairs tc = some out → (k, v) ∈ out → k ≠ "at" →
      ∃ col, (k, col) ∈ pairs ∧ List.lookup col row = some v ∧
        pdNotna v = true) := by
  constructor
  · unfold mapRow
    cases List.lookup tc row <;> simp
  · intro out k v hmap hmem hne
    unfold mapRow at hmap
    cases hl : List.lookup tc row with
    | none => rw [hl] at hmap; exact Option.noConfusion hmap
    | some t =>
      rw [hl] at hmap
      dsimp only at hmap
      injection hmap with hmap
      subst hmap
      rcases collectVars_mem pairs [("at", t)] hmem with h | h
      · rw [List.mem_singleton, Prod.mk.injEq] at h
        exact absurd h.1 hne
      · exact h

/-- Witness for `mapRow_strict_projection`: on the scenario row, the `temp`
entry of the produced record is certified by the `(temp, Temp)` mapping pair
with a present, non-NaN source cell. -/
theorem mapRow_strict_projection_witness :
    ∃ col, ("temp", col) ∈ varPairs scenarioConfig ∧
      List.lookup col scenarioRow = some (Cell.num (21.5 : ℚ)) ∧
      pdNotna (Cell.num (21.5 : ℚ)) = true :=
  (mapRow_strict_projection scenarioRow (varPairs scenarioConfig) "Time").2
    [("at", Cell.str scenarioTimeStr), ("temp", Cell.num (21.5 : ℚ))]
    "temp" (Cell.num (21.5 : ℚ)) (by rfl) (by simp) (by simp)

/-- Claim C10: whenever `readDataFile` returns a dataframe, the time column
is among its headers, and (since every pandas row has every column) the
per-row missing-time skip in `handleFile` can never fire for its rows. -/
theorem readDataFile_time_column_present (tc : String) (env : LoadEnv)
    (y z : Int) (df : Dataframe)
    (h : readDataFile tc env y z = .ok (some df)) :
    tc ∈ df.columns ∧
    ∀ rc ∈ df.cells, ∀ pairs, mapRow (df.columns.zip rc.1) pairs tc ≠ none := by
  unfold readDataFile at h
  split at h
  · exact absurd h (by simp)
  · split at h
    · exact absurd h (by simp)
    next df0 heq =>
      split at h
      next hmem =>
        split at h
        · exact Except.noConfusion h
        next vals hres =>
          rw [Except.ok.injEq, Option.some.injEq] at h
          subst h
          have hcols : tc ∈ (df0.addColumn uniCol vals).columns := by
            simp only [Dataframe.addColumn]
            exact List.mem_append_left _ hmem
          refine ⟨hcols, ?_⟩
          intro rc hrc pairs hni
          have hsome :=
            lookup_zip_isSome tc (df0.addColumn uniCol vals).columns rc.1
              hcols (le_of_eq rc.2.symm)
          unfold mapRow at hni
          cases hl : List.lookup tc ((df0.addColumn uniCol vals).columns.zip rc.1) with
          | none => rw [hl] at hsome; exact Bool.noConfusion hsome
          | some t => rw [hl] at hni; exact Option.noConfusion hni
      · exact absurd h (by simp)

/-- Witness for `readDataFile_time_column_present` on the scenario file. -/
theorem readDataFile_time_column_present_witness :
    readDataFile "Time" scenarioEnv 2022 (-28800) = .ok (some scenarioLoaded) ∧
    "Time" ∈ scenarioLoaded.columns :=
  ⟨by with_unfolding_all rfl,
   (readDataFile_time_column_present "Time" scenarioEnv 2022 (-28800)
      scenarioLoaded (by with_unfolding_all rfl)).1⟩

/-- Claim C2: on a bucketed range string with one date and two times of day,
the resolver returns exactly the spec midpoint `start + (end - start)/2`
(with one day added to the end on midnight rollover), and in the rollover
case the midpoint lies strictly between the start instant and one day after
it. -/
theorem resolver_range_midpoint (s : List Char) (y z d ts te : Int)
    (hiso : isoFromString s = none)
    (hrange : sunpowerParseRange s = some ((d, ts), (d, te))) :
    stringToUnixTimestamp s y z = .ok (rangeMidpoint d ts te z) ∧
    (te < ts →
      instantOf d ts z < rangeMidpoint d ts te z ∧
      rangeMidpoint d ts te z < instantOf d ts z + 86400) := by
  have hb := sunpowerParseRange_bounds hrange
  have hts1 : (0 : Int) ≤ ts := hb.1.1
  have hts2 : ts < 86400 := hb.1.2
  have hte1 : (0 : Int) ≤ te := hb.2.1
  have hte2 : te < 86400 := hb.2.2
  constructor
  · unfold stringToUnixTimestamp
    rw [hiso]
    unfold sunpowerBranch
    rw [hrange, Option.map_some']
    dsimp only
    rw [Except.ok.injEq]
    unfold rangeMidpoint instantOf
    rcases lt_or_le te ts with hcmp | hcmp
    · rw [if_pos (show d * 86400 + te < d * 86400 + ts by omega), if_pos hcmp]
      push_cast
      ring
    · rw [if_neg (show ¬(d * 86400 + te < d * 86400 + ts) by omega),
        if_neg (by omega)]
      push_cast
      ring
  · intro hlt
    unfold rangeMidpoint instantOf
    rw [if_pos hlt]
    have c1 : (te : ℚ) < (ts : ℚ) := by exact_mod_cast hlt
    have c2 : ((0 : Int) : ℚ) ≤ (te : ℚ) := by exact_mod_cast hte1
    have c3 : (ts : ℚ) < ((86400 : Int) : ℚ) := by exact_mod_cast hts2
    push_cast at c2 c3 ⊢
    constructor <;> linarith

/-- Witness for `resolver_range_midpoint` on the midnight-rollover range
`11:30pm - 12:30am` of 2022-02-12 at UTC-8. -/
theorem resolver_range_midpoint_witness :
    isoFromString rolloverStr.data = none ∧
    sunpowerParseRange rolloverStr.data = some ((19035, 84600), (19035, 1800)) ∧
    stringToUnixTimestamp rolloverStr.data 2022 (-28800) =
      .ok (rangeMidpoint 19035 84600 1800 (-28800)) ∧
    instantOf 19035 84600 (-28800) < rangeMidpoint 19035 84600 1800 (-28800) := by
  have h := resolver_range_midpoint rolloverStr.data 2022 (-28800)
    19035 84600 1800 (by rfl) (by rfl)
  exact ⟨by rfl, by rfl, h.1, (h.2 (by norm_num)).1⟩

/-- Claim C6 (counterexample): a run listing a good file before a
nonexistent file terminates with exit code -1, yet the good file's record
was already submitted, so "no submission occurs for that run" fails. -/
theorem mainRun_prior_submissions_cex :
    readDataFile scenarioConfig.time_column_name failEnv 2022 (-28800) =
      .ok none ∧
    (mainRun scenarioConfig 2022 (-28800) [scenarioEnv, failEnv]).exit =
      some (.exitCode (-1)) ∧
    (mainRun scenarioConfig 2022 (-28800) [scenarioEnv, failEnv]).submitted ≠
      [] := by
  refine ⟨by rfl, by with_unfolding_all rfl, ?_⟩
  have hs : (mainRun scenarioConfig 2022 (-28800) [scenarioEnv, failEnv]).submitted =
      [[("at", Cell.str scenarioTimeStr), ("temp", Cell.num (21.5 : ℚ))]] := by
    with_unfolding_all rfl
  rw [hs]
  simp

/-- Claim C6 (amended): when every file before `bad` loads and handles
cleanly and `bad` fails to load, the run aborts with exit code -1 exactly
when `bad` is reached; the records of the earlier files have already been
submitted and no later file contributes anything. -/
theorem mainRun_abort_on_load_failure (cfg : Config) (y z : Int)
    (good : List LoadEnv) (bad : LoadEnv) (rest : List LoadEnv)
    (hgood : ∀ f ∈ good, (handleFile cfg f y z).isOk = true)
    (hbad : readDataFile cfg.time_column_name bad y z = .ok none) :
    (mainRun cfg y z (good ++ bad :: rest)).exit = some (.exitCode (-1)) ∧
    (mainRun cfg y z (good ++ bad :: rest)).submitted =
      good.flatMap (fun f => (handleFile cfg f y z).toOption.getD []) := by
  induction good with
  | nil =>
    rw [List.nil_append]
    unfold mainRun
    rw [handleFile_of_load_none hbad]
    simp
  | cons g gs ih =>
    have hg := hgood g (List.mem_cons_self _ _)
    cases hcase : handleFile cfg g y z with
    | error e => rw [hcase] at hg; exact Bool.noConfusion hg
    | ok subs =>
      have hrec := ih (fun f hf => hgood f (List.mem_cons_of_mem _ hf))
      rw [List.cons_append]
      unfold mainRun
      rw [hcase]
      dsimp only
      rw [List.flatMap_cons, hcase]
      exact ⟨hrec.1, by rw [hrec.2]; rfl⟩

/-- Witness for `mainRun_abort_on_load_failure`: one good scenario file
followed by a missing file aborts with exit code -1. -/
theorem mainRun_abort_on_load_failure_witness :
    readDataFile scenarioConfig.time_column_name failEnv 2022 (-28800) =
      .ok none ∧
    (mainRun scenarioConfig 2022 (-28800)
      ([scenarioEnv] ++ failEnv :: [])).exit = some (.exitCode (-1)) := by
  have hg : ∀ f ∈ [scenarioEnv],
      (handleFile scenarioConfig f 2022 (-28800)).isOk = true := by
    intro f hf
    rw [List.mem_singleton] at hf
    subst hf
    with_unfolding_all rfl
  exact ⟨by rfl,
    (mainRun_abort_on_load_failure scenarioConfig 2022 (-28800)
      [scenarioEnv] failEnv [] hg (by rfl)).1⟩

/-- Claim C7 (counterexample): with the queue already empty, the drain loop
still performs one poll and one full 1-second sleep before returning (the
`time.sleep(1)` precedes the zero check), so it does not return
immediately: the number of one-second sleeps is 1, not 0. -/
theorem drain_empty_queue_sleeps_cex :
    drainRun 1 (fun _ => 0) 0 = some [0] ∧
    ([0] : List Nat).length = 1 ∧ (1 : Nat) ≠ 0 :=
  ⟨by rfl, by rfl, by decide⟩

/-- Claim C7 (amended): whenever the drain loop terminates, it has performed
at least one iteration (each iteration being one poll, one log of the polled
count, and one 1-second sleep); the logged values are exactly the successive
pending counts, the final poll saw zero, and every earlier poll saw a
nonzero count. -/
theorem drain_returns_on_zero (fuel k : Nat) (c : Nat → Nat) (logs : List Nat)
    (h : drainRun fuel c k = some logs) :
    1 ≤ logs.length ∧
    (∀ (j : Nat) (hj : j < logs.length), logs.get ⟨j, hj⟩ = c (k + j)) ∧
    c (k + (logs.length - 1)) = 0 ∧
    (∀ j, j + 1 < logs.length → c (k + j) ≠ 0) := by
  induction fuel generalizing k logs with
  | zero => exact Option.noConfusion h
  | succ n ih =>
    unfold drainRun at h
    by_cases hc : c k = 0
    · rw [if_pos hc] at h
      injection h with h
      subst h
      refine ⟨by simp, ?_, by simpa using hc, ?_⟩
      · intro j hj
        have hj0 : j = 0 := by simpa using Nat.lt_one_iff.mp (by simpa using hj)
        subst hj0
        simp
      · intro j hj
        simp at hj
    · rw [if_neg hc] at h
      cases hr : drainRun n c (k + 1) with
      | none => rw [hr] at h; exact Option.noConfusion h
      | some l =>
        rw [hr, Option.map_some'] at h
        injection h with h
        subst h
        obtain ⟨h1, h2, h3, h4⟩ := ih (k + 1) l hr
        refine ⟨by simp, ?_, ?_, ?_⟩
        · intro j hj
          cases j with
          | zero => simp
          | succ j2 =>
            have hj2 : j2 < l.length := by simpa using hj
            have hget := h2 j2 hj2
            have harith : k + 1 + j2 = k + (j2 + 1) := by omega
            rw [harith] at hget
            simpa using hget
        · have harith : k + ((c k :: l).length - 1) = (k + 1) + (l.length - 1) := by
            simp
            omega
          rw [harith]
          exact h3
        · intro j hj
          cases j with
          | zero => simpa using hc
          | succ j2 =>
            have hj2 : j2 + 1 < l.length := by simpa using hj
            have hx := h4 j2 hj2
            have harith : k + (j2 + 1) = k + 1 + j2 := by omega
            rw [harith]
            exact hx

/-- Witness for `drain_returns_on_zero`: the oracle reporting 5, 5, 0 makes
the loop terminate after three iterations, the last poll having seen zero. -/
theorem drain_returns_on_zero_witness :
    drainRun 9 drainCounts 0 = some [5, 5, 0] ∧
    drainCounts (0 + (([5, 5, 0] : List Nat).length - 1)) = 0 :=
  ⟨by rfl, (drain_returns_on_zero 9 0 drainCounts [5, 5, 0] (by rfl)).2.2.1⟩

end CsvToChords
